import Mathlib

/-!
Verification of the encrypt-then-pack codec in `src/server/native_crypto.cpp`
(Ulta-Secure-Messenger). Bytes are modelled as natural numbers (values 0..255);
the C `char` buffers compare and store byte values, so equality and the stored
values coincide with this model. `ultra_compress` writes bytes into a caller
buffer and returns the number written; it is modelled as a function returning
the list of written bytes, whose length is the returned count.
-/

namespace UltraSecure

/-- Scanner state of `ultra_compress`: the bytes written so far into the output
buffer, the `prev` byte, and the run counter `count`. The source initializes
`prev = 0` and `count = 1` before the loop. -/
structure CState where
  out : List Nat
  prev : Nat
  count : Nat
deriving DecidableEq

/-- One iteration of the `for` loop of `ultra_compress`
(src/server/native_crypto.cpp lines 50-64): if the input byte equals `prev` and
`count < 255` the run is extended; otherwise the pending run is flushed (a
3-byte escape `[0xFF, prev, count]` when `count > 1`, the literal `prev` when
`count == 1` and `prev != 0`, nothing when `prev == 0`) and the scanner restarts
at the new byte. Storing `count` into a `char` truncates it modulo 256. -/
def compressStep (s : CState) (b : Nat) : CState :=
  if b = s.prev ∧ s.count < 255 then
    { s with count := s.count + 1 }
  else
    { out :=
        if s.count > 1 then s.out ++ [0xFF, s.prev, s.count % 256]
        else if s.prev ≠ 0 then s.out ++ [s.prev]
        else s.out,
      prev := b, count := 1 }

/-- The flush after the loop (lines 66-72): emit the escape triple when
`count > 1`, otherwise emit `prev` as a literal — unconditionally, even for the
initial state (`prev = 0`, `count = 1`) reached on empty input. -/
def compressFlush (s : CState) : List Nat :=
  if s.count > 1 then s.out ++ [0xFF, s.prev, s.count % 256]
  else s.out ++ [s.prev]

/-- `ultra_compress` (src/server/native_crypto.cpp lines 44-75): fold the loop
body over the input starting from `prev = 0`, `count = 1`, then flush. The list
returned is the content of the output buffer; its length is the returned
`compressed_len`. -/
def ultra_compress (data : List Nat) : List Nat :=
  compressFlush (data.foldl compressStep ⟨[], 0, 1⟩)

/-- Modelled from the spec: the repository has no decompressor, the spec
defines the decoding scheme (spec section 4.2): read bytes; on `0xFF` read the
following (byte, count) pair and emit `byte` repeated `count` times; any other
byte is a literal; fail (`MalformedStream`) on an escape marker without a
complete (byte, count) pair or on a zero count. -/
def decompress : List Nat → Option (List Nat)
  | [] => some []
  | 0xFF :: _ :: 0 :: _ => none
  | 0xFF :: b :: (c + 1) :: rest =>
      (decompress rest).map (fun t => List.replicate (c + 1) b ++ t)
  | 0xFF :: [_] => none
  | [0xFF] => none
  | b :: rest => (decompress rest).map (fun t => b :: t)

/-- A sequence of `ultra_compress` calls. In the source every variable of
`ultra_compress` is a function-local (`compressed_len`, `prev`, `count`, the
loop index); no global or static state is read or written, so consecutive
calls are modelled as independent evaluations, each yielding the written bytes
and the returned length. -/
def compressCallSeq : List (List Nat) → List (List Nat × Nat)
  | [] => []
  | d :: ds => (ultra_compress d, (ultra_compress d).length) :: compressCallSeq ds

/-- Modelled from the spec: the OpenSSL EVP layer used by `ultra_encrypt` is
not part of this repository. Per the spec, the cipher context may fail to be
created or set up (`CipherInitError`) and an encryption step may reject the
input (`CipherUpdateError`); these outcomes are abstracted into one flag per
EVP call of `ultra_encrypt` (`EVP_CIPHER_CTX_new`, `EVP_EncryptInit_ex`,
`EVP_EncryptUpdate`, `EVP_EncryptFinal_ex`). -/
structure EvpEnv where
  ctxNewOk : Bool
  initOk : Bool
  updateOk : Bool
  finalOk : Bool
deriving DecidableEq

/-- Observable outcome of one `ultra_encrypt` call: the returned `int` and, to
capture the absence of internal retries, how many times each EVP primitive was
invoked on that call. -/
structure EncResult where
  ret : Int
  ctxNewCalls : Nat
  initCalls : Nat
  updateCalls : Nat
  finalCalls : Nat
deriving DecidableEq

/-- `ultra_encrypt` (src/server/native_crypto.cpp lines 15-41): create a
context, run init, update, final, freeing the context and returning `-1` on
the first failure; on success return `ciphertext_len`, the sum of the byte
counts written by update and final. Modelled from the spec: for this AEAD mode
(AES-256-GCM) the update step writes exactly as many bytes as the plaintext it
is given and the finalization step writes none, so the success return is the
plaintext length. The key and iv buffers are consumed only by the EVP layer. -/
def ultra_encrypt (env : EvpEnv) (plaintext : List Nat) (key iv : List Nat) : EncResult :=
  if env.ctxNewOk = false then
    { ret := -1, ctxNewCalls := 1, initCalls := 0, updateCalls := 0, finalCalls := 0 }
  else if env.initOk = false then
    { ret := -1, ctxNewCalls := 1, initCalls := 1, updateCalls := 0, finalCalls := 0 }
  else if env.updateOk = false then
    { ret := -1, ctxNewCalls := 1, initCalls := 1, updateCalls := 1, finalCalls := 0 }
  else if env.finalOk = false then
    { ret := -1, ctxNewCalls := 1, initCalls := 1, updateCalls := 1, finalCalls := 1 }
  else
    { ret := (plaintext.length : Int) + 0,
      ctxNewCalls := 1, initCalls := 1, updateCalls := 1, finalCalls := 1 }

end UltraSecure

namespace UltraSecure

lemma compressCallSeq_append (l₁ l₂ : List (List Nat)) :
    compressCallSeq (l₁ ++ l₂) = compressCallSeq l₁ ++ compressCallSeq l₂ := by
  induction l₁ with
  | nil => rfl
  | cons d ds ih => simp [compressCallSeq, ih]

/-- Extending a run by `k` further copies of the current byte while the counter
stays within the cap 255 only increments the counter; no bytes are written. -/
lemma foldl_compressStep_replicate (k : Nat) :
    ∀ (c : Nat) (out : List Nat) (b : Nat), c + k ≤ 255 →
      List.foldl compressStep ⟨out, b, c⟩ (List.replicate k b) = ⟨out, b, c + k⟩ := by
  induction k with
  | zero => intro c out b _; rfl
  | succ k ih =>
      intro c out b h
      rw [List.replicate_succ, List.foldl_cons]
      have hstep : compressStep ⟨out, b, c⟩ b = ⟨out, b, c + 1⟩ := by
        unfold compressStep
        rw [if_pos ⟨rfl, show c < 255 by omega⟩]
      rw [hstep, ih (c + 1) out b (by omega)]
      congr 1
      omega

/-- Each loop iteration writes at most 3 bytes into the output buffer. -/
lemma compressStep_out_length (s : CState) (b : Nat) :
    (compressStep s b).out.length ≤ s.out.length + 3 := by
  unfold compressStep
  split
  · simp
  · simp only []
    split
    · simp
    · split <;> simp

/-- Folding the loop over the input grows the output by at most 3 bytes per
input byte. -/
lemma foldl_compressStep_out_length (data : List Nat) :
    ∀ s : CState,
      (List.foldl compressStep s data).out.length ≤ s.out.length + 3 * data.length := by
  induction data with
  | nil => intro s; simp
  | cons b rest ih =>
      intro s
      have h₁ := ih (compressStep s b)
      have h₂ := compressStep_out_length s b
      calc (List.foldl compressStep s (b :: rest)).out.length
          = (List.foldl compressStep (compressStep s b) rest).out.length := by
            rw [List.foldl_cons]
        _ ≤ (compressStep s b).out.length + 3 * rest.length := h₁
        _ ≤ s.out.length + 3 + 3 * rest.length := by omega
        _ ≤ s.out.length + 3 * (b :: rest).length := by
            simp [List.length_cons]; omega

/-- The final flush writes at most 3 further bytes. -/
lemma compressFlush_length (s : CState) :
    (compressFlush s).length ≤ s.out.length + 3 := by
  unfold compressFlush
  split <;> simp

/-- C2: compress applied to `[0x41, 0x41, 0x41, 0x42]` produces exactly
`[0xFF, 0x41, 3, 0x42]`. -/
theorem c2_compress_example :
    ultra_compress [0x41, 0x41, 0x41, 0x42] = [0xFF, 0x41, 3, 0x42] := by
  decide

/-- C9: on empty input (`data_len == 0`) `ultra_compress` does not return 0:
the final flush still runs with the initial state `prev = 0`, `count = 1`,
writing the single byte `0x00` and returning length 1. -/
theorem c9_empty_input :
    ultra_compress [] = [0x00] ∧ (ultra_compress []).length = 1 := by
  decide

/-- C1 (code defect): the round-trip `decompress (ultra_compress S) = S` fails
already at `S = []`: the compressor emits the phantom initial `prev = 0` byte,
so the empty sequence compresses to `[0x00]`, which decodes to `[0x00]`,
not `[]`. -/
theorem c1_roundtrip_fails_on_empty :
    ultra_compress [] = [0x00] ∧
    decompress (ultra_compress []) = some [0x00] ∧
    decompress (ultra_compress []) ≠ some [] := by
  decide

/-- C3 (code defect): an input whose first byte is `0x00` does not round-trip:
the leading zero is merged with the phantom initial `prev = 0` (whose `count`
starts at 1), so `[0x00]` compresses to the run `[0xFF, 0x00, 2]`, which
decodes to `[0x00, 0x00]` — the leading zero is duplicated. -/
theorem c3_leading_zero_duplicated :
    ultra_compress [0x00] = [0xFF, 0x00, 2] ∧
    decompress (ultra_compress [0x00]) = some [0x00, 0x00] ∧
    decompress (ultra_compress [0x00]) ≠ some [0x00] := by
  decide

/-- C4 (code defect): a literal `0xFF` with no repetition is emitted unescaped
by the literal path, so the stream is ambiguous: `[0xFF]` compresses to
`[0xFF]`, and the decoder rejects it as an escape marker without a complete
(byte, count) pair. -/
theorem c4_literal_ff_unescaped :
    ultra_compress [0xFF] = [0xFF] ∧
    decompress (ultra_compress [0xFF]) = none := by
  decide

set_option maxRecDepth 8192 in
/-- C5 fails as stated: a run of 255 zero bytes compresses to the 4 bytes
`[0xFF, 0x00, 0xFF, 0x00]` (the escape triple plus a trailing literal zero from
the phantom initial `prev`), not to one 3-byte triple; and a run of 256 copies
of `0x41` compresses to the 4 bytes `[0xFF, 0x41, 0xFF, 0x41]` (the count-255
triple followed by the literal byte), not to two escape triples — two triples
would occupy 6 bytes. -/
theorem c5_counterexample :
    ultra_compress (List.replicate 255 0x00) = [0xFF, 0x00, 0xFF, 0x00] ∧
    ultra_compress (List.replicate 256 0x41) = [0xFF, 0x41, 0xFF, 0x41] ∧
    (ultra_compress (List.replicate 256 0x41)).length ≠ 6 := by
  refine ⟨by decide, by decide, by decide⟩

/-- C5 amended: for every nonzero byte `b`, a run of exactly 255 copies of `b`
compresses to the single escape triple `[0xFF, b, 255]`, and a run of 256
copies compresses to that triple followed by the single literal byte `b` (a
literal, not a second triple); for `b = 0` the phantom initial `prev = 0`
changes the grouping. -/
theorem c5_amended (b : Nat) (hb : b < 256) (h0 : b ≠ 0) :
    ultra_compress (List.replicate 255 b) = [0xFF, b, 0xFF] ∧
    ultra_compress (List.replicate 256 b) = [0xFF, b, 0xFF, b] := by
  have hfirst : compressStep ⟨[], 0, 1⟩ b = ⟨[], b, 1⟩ := by
    unfold compressStep
    rw [if_neg]
    · simp
    · rintro ⟨hb0, -⟩; exact h0 hb0
  have h254 : List.foldl compressStep ⟨[], b, 1⟩ (List.replicate 254 b)
      = ⟨[], b, 255⟩ := foldl_compressStep_replicate 254 1 [] b (by omega)
  constructor
  · show compressFlush (List.foldl compressStep ⟨[], 0, 1⟩ (List.replicate 255 b))
        = [0xFF, b, 0xFF]
    rw [show (255 : Nat) = 254 + 1 from rfl, List.replicate_succ, List.foldl_cons,
      hfirst, h254]
    unfold compressFlush
    rw [if_pos (show (255 : Nat) > 1 by omega)]
    rfl
  · show compressFlush (List.foldl compressStep ⟨[], 0, 1⟩ (List.replicate 256 b))
        = [0xFF, b, 0xFF, b]
    rw [show (256 : Nat) = 255 + 1 from rfl, List.replicate_succ, List.foldl_cons,
      hfirst, show (255 : Nat) = 254 + 1 from rfl, List.replicate_succ',
      List.foldl_append, h254, List.foldl_cons, List.foldl_nil]
    have hlast : compressStep ⟨[], b, 255⟩ b = ⟨[0xFF, b, 0xFF], b, 1⟩ := by
      unfold compressStep
      rw [if_neg (by rintro ⟨-, hc⟩; exact absurd (show (255 : Nat) < 255 from hc) (by omega))]
      simp
    rw [hlast]
    unfold compressFlush
    rw [if_neg (show ¬(1 : Nat) > 1 by omega)]
    rfl

/-- C5 amended, witnessed at `b = 0x41`. -/
theorem c5_amended_witness :
    ((0x41 : Nat) < 256 ∧ (0x41 : Nat) ≠ 0) ∧
    (ultra_compress (List.replicate 255 0x41) = [0xFF, 0x41, 0xFF] ∧
     ultra_compress (List.replicate 256 0x41) = [0xFF, 0x41, 0xFF, 0x41]) :=
  ⟨⟨by decide, by decide⟩, c5_amended 0x41 (by decide) (by decide)⟩

/-- C6: `ultra_compress` is deterministic and stateless across calls: in any
sequence of invocations, the result of a call — written bytes and returned
length — is a function of that call's input alone, independent of the whole
earlier call history. -/
theorem c6_deterministic_stateless (hist : List (List Nat)) (d : List Nat) :
    (compressCallSeq (hist ++ [d])).getLast?
      = some (ultra_compress d, (ultra_compress d).length) := by
  rw [compressCallSeq_append]
  exact List.getLast?_concat _

/-- C7: for every plaintext of length `N`, 32-byte key and 16-byte nonce, a
successful `ultra_encrypt` (every EVP step accepted) returns a byte count equal
to `N`: update writes the `N` plaintext bytes and final writes nothing in this
AEAD mode. -/
theorem c7_ciphertext_length (env : EvpEnv) (pt key iv : List Nat)
    (hkey : key.length = 32) (hiv : iv.length = 16)
    (hok : env.ctxNewOk = true ∧ env.initOk = true ∧ env.updateOk = true ∧
      env.finalOk = true) :
    (ultra_encrypt env pt key iv).ret = (pt.length : Int) := by
  obtain ⟨h₁, h₂, h₃, h₄⟩ := hok
  simp [ultra_encrypt, h₁, h₂, h₃, h₄]

/-- C7, witnessed at a 3-byte plaintext, the all-zero 32-byte key and the
all-zero 16-byte nonce, with every EVP step succeeding. -/
theorem c7_ciphertext_length_witness :
    ((List.replicate 32 0 : List Nat).length = 32 ∧
     (List.replicate 16 0 : List Nat).length = 16 ∧
     ((⟨true, true, true, true⟩ : EvpEnv).ctxNewOk = true ∧
      (⟨true, true, true, true⟩ : EvpEnv).initOk = true ∧
      (⟨true, true, true, true⟩ : EvpEnv).updateOk = true ∧
      (⟨true, true, true, true⟩ : EvpEnv).finalOk = true)) ∧
    (ultra_encrypt ⟨true, true, true, true⟩ [1, 2, 3] (List.replicate 32 0)
      (List.replicate 16 0)).ret = (([1, 2, 3] : List Nat).length : Int) :=
  ⟨⟨by decide, by decide, rfl, rfl, rfl, rfl⟩,
    c7_ciphertext_length ⟨true, true, true, true⟩ [1, 2, 3] (List.replicate 32 0)
      (List.replicate 16 0) (by decide) (by decide) ⟨rfl, rfl, rfl, rfl⟩⟩

/-- C8 fails as stated on distinguishability: a context-creation failure and an
update-step failure both make `ultra_encrypt` return the same bare `-1` — the
two failure kinds are not distinguishable error results at the C boundary. -/
theorem c8_counterexample :
    (ultra_encrypt ⟨false, true, true, true⟩ [1] (List.replicate 32 0)
      (List.replicate 16 0)).ret = -1 ∧
    (ultra_encrypt ⟨true, true, false, true⟩ [1] (List.replicate 32 0)
      (List.replicate 16 0)).ret = -1 ∧
    (ultra_encrypt ⟨false, true, true, true⟩ [1] (List.replicate 32 0)
      (List.replicate 16 0)).ret =
    (ultra_encrypt ⟨true, true, false, true⟩ [1] (List.replicate 32 0)
      (List.replicate 16 0)).ret := by
  refine ⟨by decide, by decide, by decide⟩

/-- C8 amended: `ultra_encrypt` fails by returning `-1` both when the cipher
context cannot be created and when an encryption step rejects the input — the
same value for both kinds, so they are not distinguishable — and every error
is returned directly to the immediate caller with no internal retry: on any
call, each EVP primitive is invoked at most once. -/
theorem c8_amended (env : EvpEnv) (pt key iv : List Nat)
    (hfail : env.ctxNewOk = false ∨ env.initOk = false ∨ env.updateOk = false ∨
      env.finalOk = false) :
    (ultra_encrypt env pt key iv).ret = -1 ∧
    (ultra_encrypt env pt key iv).ctxNewCalls = 1 ∧
    (ultra_encrypt env pt key iv).initCalls ≤ 1 ∧
    (ultra_encrypt env pt key iv).updateCalls ≤ 1 ∧
    (ultra_encrypt env pt key iv).finalCalls ≤ 1 := by
  obtain ⟨a, b, c, d⟩ := env
  cases a <;> cases b <;> cases c <;> cases d <;>
    simp_all [ultra_encrypt]

/-- C8 amended, witnessed at a context-creation failure. -/
theorem c8_amended_witness :
    ((⟨false, true, true, true⟩ : EvpEnv).ctxNewOk = false ∨
     (⟨false, true, true, true⟩ : EvpEnv).initOk = false ∨
     (⟨false, true, true, true⟩ : EvpEnv).updateOk = false ∨
     (⟨false, true, true, true⟩ : EvpEnv).finalOk = false) ∧
    ((ultra_encrypt ⟨false, true, true, true⟩ [1] (List.replicate 32 0)
        (List.replicate 16 0)).ret = -1 ∧
     (ultra_encrypt ⟨false, true, true, true⟩ [1] (List.replicate 32 0)
        (List.replicate 16 0)).ctxNewCalls = 1 ∧
     (ultra_encrypt ⟨false, true, true, true⟩ [1] (List.replicate 32 0)
        (List.replicate 16 0)).initCalls ≤ 1 ∧
     (ultra_encrypt ⟨false, true, true, true⟩ [1] (List.replicate 32 0)
        (List.replicate 16 0)).updateCalls ≤ 1 ∧
     (ultra_encrypt ⟨false, true, true, true⟩ [1] (List.replicate 32 0)
        (List.replicate 16 0)).finalCalls ≤ 1) :=
  ⟨Or.inl rfl,
    c8_amended ⟨false, true, true, true⟩ [1] (List.replicate 32 0)
      (List.replicate 16 0) (Or.inl rfl)⟩

/-- C10: for every input of length `n`, `ultra_compress` writes at most
`3 * n + 3` bytes (3 per loop iteration plus 3 for the final flush) and returns
that written length, so a destination buffer of capacity `3 * n + 3` is never
overrun. -/
theorem c10_output_bound (data : List Nat) :
    (ultra_compress data).length ≤ 3 * data.length + 3 := by
  have h₁ := compressFlush_length (List.foldl compressStep ⟨[], 0, 1⟩ data)
  have h₂ := foldl_compressStep_out_length data ⟨[], 0, 1⟩
  simp only [ultra_compress]
  simp at h₂
  omega

end UltraSecure
